import Mathlib

/-!
# Verification of the FastifyJs workshop repository

Shallow embedding of the route handlers, plugins and utility functions of
the FastifyJs tutorial repository, together with proofs of the specified
properties.

JavaScript objects used as key/value stores (`fastify.users`,
`fastify.dataStore.pages`, the session flash store) are modelled as
association lists `List (String × α)` with the JavaScript assignment and
lookup semantics (`objSet`, `objGet`).  Library functions whose code is
delegated to imported packages (argon2 hashing, csrf token generation) are
modelled as function parameters, and the documented behaviour of
`@fastify/flash` (reading a category returns its messages and deletes the
key) is embedded as `flashTake`.
-/

namespace FastifyJs

/-- JavaScript property lookup `obj[k]`: the value stored under the key,
`none` when the key is absent. -/
def objGet {α : Type} : List (String × α) → String → Option α
  | [], _ => none
  | p :: rest, k => if p.1 == k then some p.2 else objGet rest k

/-- JavaScript object assignment `obj[k] = v`: replace the value of an
existing key in place, otherwise append the new key at the end. -/
def objSet {α : Type} : List (String × α) → String → α → List (String × α)
  | [], k, v => [(k, v)]
  | p :: rest, k, v => if p.1 == k then (k, v) :: rest else p :: objSet rest k v

/-- JavaScript field mutation `obj[k].field = v`: rewrite the value stored
under key `k` with `f`, leaving every other entry alone. -/
def objUpdate {α : Type} (store : List (String × α)) (k : String) (f : α → α) :
    List (String × α) :=
  store.map (fun p => if p.1 == k then (p.1, f p.2) else p)

/-! ## Basic lemmas on the object model -/

theorem objGet_objSet_self {α : Type} (l : List (String × α)) (k : String)
    (v : α) : objGet (objSet l k v) k = some v := by
  induction l with
  | nil => simp [objGet, objSet]
  | cons p rest ih =>
    by_cases hp : p.1 = k
    · simp [objSet, objGet, hp]
    · simp [objSet, objGet, hp, ih]

theorem objGet_objSet_ne {α : Type} (l : List (String × α)) (k j : String)
    (v : α) (h : j ≠ k) : objGet (objSet l k v) j = objGet l j := by
  induction l with
  | nil => simp [objGet, objSet, Ne.symm h]
  | cons p rest ih =>
    by_cases hp : p.1 = k
    · simp [objSet, objGet, hp, Ne.symm h]
    · by_cases hj : p.1 = j
      · simp [objSet, objGet, hp, hj, h]
      · simp [objSet, objGet, hp, hj, h, ih]

theorem objSet_length_of_absent {α : Type} (l : List (String × α))
    (k : String) (v : α) (h : objGet l k = none) :
    (objSet l k v).length = l.length + 1 := by
  induction l with
  | nil => simp [objSet]
  | cons p rest ih =>
    by_cases hp : p.1 = k
    · simp [objGet, hp] at h
    · simp [objGet, hp] at h
      simp [objSet, hp, ih h]

theorem objGet_objUpdate_self {α : Type} (l : List (String × α)) (k : String)
    (f : α → α) (v : α) (h : objGet l k = some v) :
    objGet (objUpdate l k f) k = some (f v) := by
  induction l with
  | nil => simp [objGet] at h
  | cons p rest ih =>
    by_cases hp : p.1 = k
    · simp [objGet, hp] at h
      simp [objUpdate, objGet, hp, h]
    · simp [objGet, hp] at h
      simp [objUpdate, objGet, hp] at ih ⊢
      exact ih h

theorem objGet_objUpdate_ne {α : Type} (l : List (String × α)) (k j : String)
    (f : α → α) (h : j ≠ k) :
    objGet (objUpdate l k f) j = objGet l j := by
  induction l with
  | nil => simp [objGet, objUpdate]
  | cons p rest ih =>
    by_cases hp : p.1 = k
    · simp [objUpdate, objGet, hp, Ne.symm h] at ih ⊢
      exact ih
    · by_cases hj : p.1 = j
      · simp [objUpdate, objGet, hp, hj, h]
      · simp [objUpdate, objGet, hp, hj, h] at ih ⊢
        exact ih

/-! ## Flash messages (`@fastify/flash` + `utils.js`) -/

/-- The session flash store: a JavaScript object mapping a category to the
array of pending messages of that category. -/
abbrev FlashStore := List (String × List String)

/-- Model of `request.flash(category, message)`: append `message` to the array of
pending messages of `category`, creating the array when absent. -/
def flashPush (store : FlashStore) (category message : String) : FlashStore :=
  match objGet store category with
  | some msgs => objSet store category (msgs ++ [message])
  | none => objSet store category [message]

/-- Deleting a flash category from the session store. -/
def flashClear : FlashStore → String → FlashStore
  | [], _ => []
  | p :: rest, category =>
    if p.1 == category then flashClear rest category
    else p :: flashClear rest category

/-- Model of `reply.flash(category)`: return the pending messages of `category` and
delete the key from the session flash store. -/
def flashTake (store : FlashStore) (category : String) :
    List String × FlashStore :=
  ((objGet store category).getD [], flashClear store category)

/-- A collected flash message as pushed by `collectMessages` in `utils.js`. -/
structure FlashMsg where
  category : String
  message : String
deriving DecidableEq, Repr

/-- The list of categories read by `collectMessages` in `utils.js`. -/
def flashCategories : List String := ["danger", "success", "info"]

/-- Function `collectMessages(reply)` from `utils.js`: for each category in
`flashCategories`, read (and thereby consume) its pending messages and tag
each with its category. -/
def collectMessages (store : FlashStore) : List FlashMsg × FlashStore :=
  flashCategories.foldl
    (fun acc category =>
      let taken := flashTake acc.2 category
      (acc.1 ++ taken.1.map (fun m => { category := category, message := m }),
       taken.2))
    ([], store)

theorem objGet_flashClear_ne (l : FlashStore) (k c : String) (h : k ≠ c) :
    objGet (flashClear l c) k = objGet l k := by
  induction l with
  | nil => simp [flashClear, objGet]
  | cons p rest ih =>
    by_cases hp : p.1 = c
    · by_cases hk : p.1 = k
      · exact absurd (hk ▸ hp) h
      · simp [flashClear, hp, objGet, hk, h, Ne.symm h] at ih ⊢
        exact ih
    · by_cases hk : p.1 = k
      · simp [flashClear, hp, objGet, hk, h, Ne.symm h]
      · simp [flashClear, hp, objGet, hk, h, Ne.symm h] at ih ⊢
        exact ih

theorem objGet_flashClear_self (l : FlashStore) (c : String) :
    objGet (flashClear l c) c = none := by
  induction l with
  | nil => simp [flashClear, objGet]
  | cons p rest ih =>
    by_cases hp : p.1 = c
    · simpa [flashClear, hp] using ih
    · simp [flashClear, hp, objGet] at ih ⊢
      exact ih

theorem objGet_flashClear_none (l : FlashStore) (k c : String)
    (h : objGet l k = none) : objGet (flashClear l c) k = none := by
  by_cases hk : k = c
  · simpa [hk] using objGet_flashClear_self l c
  · rw [objGet_flashClear_ne l k c hk]
    exact h

/-! ## C5: flash messages are one-time -/

/-- The pending messages of a category, as stored in the session. -/
def pendingOf (store : FlashStore) (category : String) : List String :=
  (objGet store category).getD []

theorem collectMessages_unfold (store : FlashStore) :
    collectMessages store =
      ((pendingOf store "danger").map (fun m => ⟨"danger", m⟩) ++
       (pendingOf store "success").map (fun m => ⟨"success", m⟩) ++
       (pendingOf store "info").map (fun m => ⟨"info", m⟩),
       flashClear (flashClear (flashClear store "danger") "success") "info") := by
  have h1 : objGet (flashClear store "danger") "success" =
      objGet store "success" :=
    objGet_flashClear_ne store "success" "danger" (by decide)
  have h2 : objGet (flashClear (flashClear store "danger") "success") "info" =
      objGet (flashClear store "danger") "info" :=
    objGet_flashClear_ne _ "info" "success" (by decide)
  have h3 : objGet (flashClear store "danger") "info" = objGet store "info" :=
    objGet_flashClear_ne store "info" "danger" (by decide)
  simp [collectMessages, flashCategories, flashTake, pendingOf, h1, h2, h3]

/-- C5: `collectMessages` returns every pending message of the categories
danger, success and info, removes them from the session flash store, and an
immediately repeated call on the resulting store returns the empty list. -/
theorem collectMessages_one_time (store : FlashStore) :
    (collectMessages store).1 =
      (pendingOf store "danger").map (fun m => ⟨"danger", m⟩) ++
      (pendingOf store "success").map (fun m => ⟨"success", m⟩) ++
      (pendingOf store "info").map (fun m => ⟨"info", m⟩) ∧
    pendingOf (collectMessages store).2 "danger" = [] ∧
    pendingOf (collectMessages store).2 "success" = [] ∧
    pendingOf (collectMessages store).2 "info" = [] ∧
    (collectMessages (collectMessages store).2).1 = [] := by
  have h := collectMessages_unfold store
  have hd : objGet (collectMessages store).2 "danger" = none := by
    rw [h]
    exact objGet_flashClear_none _ _ _
      (objGet_flashClear_none _ _ _ (objGet_flashClear_self store "danger"))
  have hs : objGet (collectMessages store).2 "success" = none := by
    rw [h]
    exact objGet_flashClear_none _ _ _ (objGet_flashClear_self _ "success")
  have hi : objGet (collectMessages store).2 "info" = none := by
    rw [h]
    exact objGet_flashClear_self _ "info"
  refine ⟨by rw [h], ?_, ?_, ?_, ?_⟩
  · simp [pendingOf, hd]
  · simp [pendingOf, hs]
  · simp [pendingOf, hi]
  · rw [collectMessages_unfold]
    simp [pendingOf, hd, hs, hi]

/-! ## Sessions, replies and the in-memory auth routes -/

/-- The session keys written with `request.session.set` across the
examples: `user` and `user_id` in the Workshop4 apps, `username` in the
Workshop3 wiki app. -/
structure Session where
  user : Option String := none
  userId : Option Nat := none
  username : Option String := none
deriving DecidableEq, Repr

/-- JavaScript truthiness of `request.session.get(key)` for a string-valued
key: `undefined` and the empty string are falsy. -/
def truthy : Option String → Bool
  | none => false
  | some s => !s.isEmpty

/-- The reply produced by a handler: a redirect or a rendered view. -/
inductive Reply where
  | redirect (path : String)
  | view (template : String)
deriving DecidableEq, Repr

/-- A user record of the in-memory store of Workshop4 Example1
(`fastify.users[username] = { passwordHash }`). -/
structure UserRec where
  passwordHash : String
deriving DecidableEq, Repr

/-- The in-memory user store `fastify.users`. -/
abbrev UserStore := List (String × UserRec)

/-- The observable outcome of a register/login request: the user store, the
session flash store and the reply. -/
structure AuthResult where
  users : UserStore
  flash : FlashStore
  reply : Reply
deriving DecidableEq, Repr

/-- Handler `POST /register` from Workshop4 Example1 `routes/profile.js`: reject an
already-present username with a danger flash and a redirect to
`/register`, otherwise store `{ passwordHash: argon2.hash(password) }`
under the username, flash success and redirect to `/login`.  The argon2
hash is delegated to the library and modelled by the `hash` parameter. -/
def registerPost (hash : String → String) (users : UserStore)
    (flash : FlashStore) (username password : String) : AuthResult :=
  if (objGet users username).isSome then
    { users := users
      flash := flashPush flash "danger" "Username already exists!"
      reply := .redirect "/register" }
  else
    { users := objSet users username { passwordHash := hash password }
      flash := flashPush flash "success"
        "Registration successful! Please log in."
      reply := .redirect "/login" }

/-! ## C1: registration creates exactly one record -/

/-- C1: for every `POST /register` whose username is not already present in
the user store, exactly one new record, holding the argon2 hash of the
submitted password, is added under that username; every other username
still maps to what it mapped to before; the reply redirects to `/login`
with a success flash message. -/
theorem registerPost_creates_one_record (hash : String → String)
    (users : UserStore) (flash : FlashStore) (username password : String)
    (h : objGet users username = none) :
    objGet (registerPost hash users flash username password).users username =
      some { passwordHash := hash password } ∧
    (∀ u, u ≠ username →
      objGet (registerPost hash users flash username password).users u =
        objGet users u) ∧
    (registerPost hash users flash username password).users.length =
      users.length + 1 ∧
    (registerPost hash users flash username password).reply =
      Reply.redirect "/login" ∧
    (registerPost hash users flash username password).flash =
      flashPush flash "success" "Registration successful! Please log in." := by
  refine ⟨?_, ?_, ?_, ?_, ?_⟩
  · simp [registerPost, h, objGet_objSet_self]
  · intro u hu
    simp [registerPost, h, objGet_objSet_ne users username u _ hu]
  · simp [registerPost, h, objSet_length_of_absent users username _ h]
  · simp [registerPost, h]
  · simp [registerPost, h]

/-- A concrete hash function standing in for `argon2.hash` in witnesses. -/
def hash0 (p : String) : String := "h:" ++ p

/-- A one-user store used by witnesses. -/
def demoUsers : UserStore := [("bob", { passwordHash := "h:x" })]

theorem registerPost_creates_one_record_witness :
    objGet (registerPost hash0 demoUsers [] "alice" "pw").users "alice" =
      some { passwordHash := "h:pw" } ∧
    objGet (registerPost hash0 demoUsers [] "alice" "pw").users "bob" =
      objGet demoUsers "bob" ∧
    (registerPost hash0 demoUsers [] "alice" "pw").reply =
      Reply.redirect "/login" := by
  have h := registerPost_creates_one_record hash0 demoUsers [] "alice" "pw"
    (by decide)
  exact ⟨h.1, h.2.1 "bob" (by decide), h.2.2.2.1⟩

/-! ## C3: username is a unique key -/

/-- The user stores reachable in the Workshop4 Example1 app: the store
starts empty and is only ever written by `POST /register`. -/
inductive ReachableUsers : UserStore → Prop
  | init : ReachableUsers []
  | register (hash : String → String) (users : UserStore)
      (flash : FlashStore) (username password : String) :
      ReachableUsers users →
      ReachableUsers (registerPost hash users flash username password).users

theorem mem_keys_objSet {α : Type} (l : List (String × α)) (k a : String)
    (v : α) (h : a ∈ (objSet l k v).map Prod.fst) :
    a ∈ l.map Prod.fst ∨ a = k := by
  induction l with
  | nil =>
    rw [show objSet ([] : List (String × α)) k v = [(k, v)] from rfl] at h
    simp at h
    exact Or.inr h
  | cons p rest ih =>
    by_cases hp : p.1 = k
    · have he : objSet (p :: rest) k v = (k, v) :: rest := by simp [objSet, hp]
      rw [he, List.map_cons, List.mem_cons] at h
      rcases h with h | h
      · exact Or.inr h
      · exact Or.inl (by rw [List.map_cons, List.mem_cons]; exact Or.inr h)
    · have he : objSet (p :: rest) k v = p :: objSet rest k v := by
        simp [objSet, hp]
      rw [he, List.map_cons, List.mem_cons] at h
      rcases h with h | h
      · exact Or.inl (by rw [List.map_cons, List.mem_cons]; exact Or.inl h)
      · rcases ih h with h2 | h2
        · exact Or.inl (by rw [List.map_cons, List.mem_cons]; exact Or.inr h2)
        · exact Or.inr h2

theorem nodup_keys_objSet {α : Type} (l : List (String × α)) (k : String)
    (v : α) (h : (l.map Prod.fst).Nodup) :
    ((objSet l k v).map Prod.fst).Nodup := by
  induction l with
  | nil => simp [objSet]
  | cons p rest ih =>
    rw [List.map_cons, List.nodup_cons] at h
    by_cases hp : p.1 = k
    · have he : objSet (p :: rest) k v = (k, v) :: rest := by simp [objSet, hp]
      rw [he, List.map_cons, List.nodup_cons]
      exact ⟨hp ▸ h.1, h.2⟩
    · have he : objSet (p :: rest) k v = p :: objSet rest k v := by
        simp [objSet, hp]
      rw [he, List.map_cons, List.nodup_cons]
      refine ⟨?_, ih h.2⟩
      intro hmem
      rcases mem_keys_objSet rest k p.1 v hmem with h2 | h2
      · exact h.1 h2
      · exact hp h2

theorem reachable_users_nodup (users : UserStore)
    (hr : ReachableUsers users) : (users.map Prod.fst).Nodup := by
  induction hr with
  | init => simp
  | register hash users flash username password hr ih =>
    by_cases h : (objGet users username).isSome
    · simpa [registerPost, h] using ih
    · simp [registerPost, h]
      exact nodup_keys_objSet users username _ ih

theorem countP_fst_eq_count (s : UserStore) (u : String) :
    s.countP (fun q => q.1 == u) = (s.map Prod.fst).count u := by
  induction s with
  | nil => simp
  | cons p rest ih =>
    by_cases h : p.1 = u <;>
      simp [List.count_cons, List.countP_cons, h, ih]

/-- C3: in every reachable user store of the Workshop4 Example1 app each
username maps to at most one record, and `POST /register` with a username
that already exists leaves the store unchanged, flashes danger
`Username already exists!` and redirects to `/register`. -/
theorem username_unique_key (hash : String → String) (users : UserStore)
    (flash : FlashStore) (username password : String)
    (hr : ReachableUsers users) :
    (∀ u, users.countP (fun q => q.1 == u) ≤ 1) ∧
    ((objGet users username).isSome = true →
      (registerPost hash users flash username password).users = users ∧
      (registerPost hash users flash username password).flash =
        flashPush flash "danger" "Username already exists!" ∧
      (registerPost hash users flash username password).reply =
        Reply.redirect "/register") := by
  constructor
  · intro u
    rw [countP_fst_eq_count]
    exact List.nodup_iff_count_le_one.mp (reachable_users_nodup users hr) u
  · intro h
    refine ⟨?_, ?_, ?_⟩ <;> simp [registerPost, h]

/-- A store obtained by registering alice into the empty store. -/
def usersAlice : UserStore := (registerPost hash0 [] [] "alice" "pw").users

theorem username_unique_key_witness :
    (registerPost hash0 usersAlice [] "alice" "pw2").users = usersAlice ∧
    usersAlice.countP (fun q => q.1 == "alice") ≤ 1 := by
  have hr : ReachableUsers usersAlice :=
    ReachableUsers.register hash0 [] [] "alice" "pw" ReachableUsers.init
  have h := username_unique_key hash0 usersAlice [] "alice" "pw2" hr
  exact ⟨(h.2 (by decide)).1, h.1 "alice"⟩

/-! ## C4: login failures follow the redirect-with-flash pattern -/

/-- A row of the `user` table used by the SQL and ORM auth examples. -/
structure UserRow where
  id : Nat
  username : String
  password_hash : String
deriving DecidableEq, Repr

/-- Model of `User.findByUsername` and `User.findOne` by username:
the first row whose username matches. -/
def findByUsername (db : List UserRow) (username : String) : Option UserRow :=
  db.find? (fun r => r.username == username)

/-- The outcome of `POST /login`: session, flash store and reply. -/
structure LoginResult where
  session : Session
  flash : FlashStore
  reply : Reply
deriving DecidableEq, Repr

/-- Handler `POST /login` from part_004 / Workshop4 Example6 `routes/auth.js`: look
the user up by username; when no row exists or argon2 verification
(modelled by the `verify` parameter) fails, flash danger and redirect to
`/login` leaving the session alone; on success store `user_id` and `user`
in the session, flash success and redirect to `/`. -/
def loginPost (verify : String → String → Bool) (db : List UserRow)
    (session : Session) (flash : FlashStore) (username password : String) :
    LoginResult :=
  match findByUsername db username with
  | none =>
    { session := session
      flash := flashPush flash "danger" "Invalid username or password."
      reply := .redirect "/login" }
  | some user =>
    if verify user.password_hash password then
      { session := { session with userId := some user.id
                                  user := some user.username }
        flash := flashPush flash "success" "Logged in successfully!"
        reply := .redirect "/" }
    else
      { session := session
        flash := flashPush flash "danger" "Invalid username or password."
        reply := .redirect "/login" }

/-- C4: whenever no user row matches the submitted username or the
password fails hash verification, `POST /login` flashes danger
`Invalid username or password.` and redirects to `/login` with the session
unchanged; only on successful verification are `user_id` and `user` stored
in the session (with success flash and redirect to `/`). -/
theorem login_failure_pattern (verify : String → String → Bool)
    (db : List UserRow) (session : Session) (flash : FlashStore)
    (username password : String) :
    ((∀ u, findByUsername db username = some u →
        verify u.password_hash password = false) →
      loginPost verify db session flash username password =
        { session := session
          flash := flashPush flash "danger" "Invalid username or password."
          reply := Reply.redirect "/login" }) ∧
    (∀ u, findByUsername db username = some u →
      verify u.password_hash password = true →
      loginPost verify db session flash username password =
        { session := { session with userId := some u.id
                                    user := some u.username }
          flash := flashPush flash "success" "Logged in successfully!"
          reply := Reply.redirect "/" }) := by
  constructor
  · intro hfail
    cases hdb : findByUsername db username with
    | none => simp [loginPost, hdb]
    | some u => simp [loginPost, hdb, hfail u hdb]
  · intro u hdb hv
    simp [loginPost, hdb, hv]

/-- A concrete verifier standing in for `argon2.verify` in witnesses. -/
def verify0 (h p : String) : Bool := h == hash0 p

/-- A one-row user table used by witnesses. -/
def db0 : List UserRow :=
  [{ id := 1, username := "alice", password_hash := "h:pw" }]

theorem login_failure_pattern_witness :
    loginPost verify0 db0 {} [] "bob" "pw" =
      { session := {}
        flash := flashPush [] "danger" "Invalid username or password."
        reply := Reply.redirect "/login" } ∧
    loginPost verify0 db0 {} [] "alice" "pw" =
      { session := { user := some "alice", userId := some 1 }
        flash := flashPush [] "success" "Logged in successfully!"
        reply := Reply.redirect "/" } := by
  constructor
  · refine (login_failure_pattern verify0 db0 {} [] "bob" "pw").1 ?_
    intro u hu
    rw [show findByUsername db0 "bob" = none by decide] at hu
    simp at hu
  · have h := (login_failure_pattern verify0 db0 {} [] "alice" "pw").2
      { id := 1, username := "alice", password_hash := "h:pw" }
      (by decide) (by decide)
    simpa using h

/-! ## The Workshop3 wiki app: data store, protected routes -/

/-- A user record of the Workshop3 wiki app data store
(`fastify.dataStore.users[username] = \x7b password, avatar \x7d`). -/
structure DataUserRec where
  password : String
  avatar : Option String := none
deriving DecidableEq, Repr

/-- Store `fastify.dataStore.users`. -/
abbrev DataUserStore := List (String × DataUserRec)

/-- A wiki page record (`\x7b content, author \x7d`). -/
structure PageRec where
  content : String
  author : String
deriving DecidableEq, Repr

/-- Store `fastify.dataStore.pages`, keyed by title. -/
abbrev PageStore := List (String × PageRec)

/-- Handler `GET /profile` from part_015: redirect unauthenticated visitors to
`/login` with a danger flash, otherwise collect the flash messages and
render the profile view. -/
def profileGet (_users : DataUserStore) (session : Session)
    (flash : FlashStore) : FlashStore × Reply :=
  if !(truthy session.username) then
    (flashPush flash "danger" "You must be logged in to view your profile.",
     .redirect "/login")
  else
    ((collectMessages flash).2, .view "profile")

/-- Handler `GET /create` from `routes/wiki.js`: collect the flash messages, then
redirect unauthenticated visitors to `/login` with a danger flash,
otherwise render the create-page view. -/
def createGet (session : Session) (flash : FlashStore) :
    FlashStore × Reply :=
  let collected := collectMessages flash
  if !(truthy session.username) then
    (flashPush collected.2 "danger"
       "You must be logged in to create a page.",
     .redirect "/login")
  else
    (collected.2, .view "create_page")

/-- Handler `POST /create` from `routes/wiki.js`: redirect unauthenticated
visitors to `/login` with a danger flash, otherwise store
`\x7b content, author: session username \x7d` under the submitted title and
redirect to the new wiki page. -/
def createPost (pages : PageStore) (session : Session) (flash : FlashStore)
    (title content : String) : PageStore × FlashStore × Reply :=
  if !(truthy session.username) then
    (pages,
     flashPush flash "danger" "You must be logged in to create a page.",
     .redirect "/login")
  else
    (objSet pages title
       { content := content, author := (session.username).getD "" },
     flash, .redirect ("/wiki/" ++ title))

/-- The `loginRequired` decorator from part_006: run the wrapped handler
only when the session holds a logged-in `user`, otherwise flash danger and
redirect to `/login`. -/
def loginRequired (handler : Session → FlashStore → FlashStore × Reply)
    (session : Session) (flash : FlashStore) : FlashStore × Reply :=
  if !(truthy session.user) then
    (flashPush flash "danger" "You must log in to access this page.",
     .redirect "/login")
  else
    handler session flash

/-! ## C2: unauthenticated requests to protected routes -/

/-- C2: when the session has no logged-in user (`user` and `username`
unset), `GET /profile`, `GET /create`, `POST /create` and any handler
wrapped by `loginRequired` never return the protected view: each flashes a
danger message and redirects to `/login`. -/
theorem unauthenticated_redirects (users : DataUserStore) (pages : PageStore)
    (session : Session) (flash : FlashStore) (title content : String)
    (handler : Session → FlashStore → FlashStore × Reply)
    (hUsername : session.username = none) (hUser : session.user = none) :
    profileGet users session flash =
      (flashPush flash "danger"
         "You must be logged in to view your profile.",
       Reply.redirect "/login") ∧
    createGet session flash =
      (flashPush (collectMessages flash).2 "danger"
         "You must be logged in to create a page.",
       Reply.redirect "/login") ∧
    createPost pages session flash title content =
      (pages,
       flashPush flash "danger" "You must be logged in to create a page.",
       Reply.redirect "/login") ∧
    loginRequired handler session flash =
      (flashPush flash "danger" "You must log in to access this page.",
       Reply.redirect "/login") := by
  refine ⟨?_, ?_, ?_, ?_⟩ <;>
    simp [profileGet, createGet, createPost, loginRequired, hUsername,
      hUser, truthy]

theorem unauthenticated_redirects_witness :
    profileGet [] {} [] =
      (flashPush [] "danger"
         "You must be logged in to view your profile.",
       Reply.redirect "/login") ∧
    loginRequired (fun _ f => (f, Reply.view "secret")) {} [] =
      (flashPush [] "danger" "You must log in to access this page.",
       Reply.redirect "/login") := by
  have h := unauthenticated_redirects [] [] {} [] "t" "c"
    (fun _ f => (f, Reply.view "secret")) rfl rfl
  exact ⟨h.1, h.2.2.2⟩

/-! ## C7: page creation and its frame condition -/

/-- The wiki page store before the overwriting request of the C7
counterexample. -/
def pagesBefore : PageStore := [("t", { content := "old", author := "bob" })]

/-- A logged-in wiki session for alice. -/
def sessionAlice : Session := { username := some "alice" }

/-- C7 counterexample: a logged-in `POST /create` whose title already
exists replaces the page stored under that title, so the record present
before the operation is not preserved. -/
theorem createPost_overwrites_cex :
    ¬ (objGet (createPost pagesBefore sessionAlice [] "t" "new").1 "t" =
        objGet pagesBefore "t") := by decide

/-- C7 (amended): for every logged-in `POST /create` with title `t` and
content `c`, the pages store afterwards contains
`\x7b content: c, author: session username \x7d` under `t`, and every page
record stored under a title other than `t` is still present and unchanged;
a record previously stored under `t` itself is overwritten. -/
theorem createPost_frame (pages : PageStore) (session : Session)
    (flash : FlashStore) (title content u : String)
    (hu : session.username = some u) (htr : truthy session.username = true) :
    objGet (createPost pages session flash title content).1 title =
      some { content := content, author := u } ∧
    (∀ t, t ≠ title →
      objGet (createPost pages session flash title content).1 t =
        objGet pages t) ∧
    (createPost pages session flash title content).2.1 = flash ∧
    (createPost pages session flash title content).2.2 =
      Reply.redirect ("/wiki/" ++ title) := by
  have htr2 : truthy (some u) = true := hu ▸ htr
  refine ⟨?_, ?_, ?_, ?_⟩
  · simp [createPost, hu, htr2, objGet_objSet_self]
  · intro t ht
    simp [createPost, hu, htr2, objGet_objSet_ne pages title t _ ht]
  · simp [createPost, htr]
  · simp [createPost, htr]

theorem createPost_frame_witness :
    objGet (createPost pagesBefore sessionAlice [] "Home" "hello").1 "Home" =
      some { content := "hello", author := "alice" } ∧
    objGet (createPost pagesBefore sessionAlice [] "Home" "hello").1 "t" =
      objGet pagesBefore "t" := by
  have h := createPost_frame pagesBefore sessionAlice [] "Home" "hello"
    "alice" rfl (by decide)
  exact ⟨h.1, h.2.1 "t" (by decide)⟩

/-! ## C9: the `allowedFile` extension check of `plugins/multipart.js` -/

/-- JavaScript `str.split(sep)` for a single-character separator, on the
character list of the string. -/
def splitChar (sep : Char) : List Char → List (List Char)
  | [] => [[]]
  | c :: cs =>
    match splitChar sep cs with
    | [] => [[]]
    | h :: t => if c = sep then [] :: h :: t else (c :: h) :: t

theorem splitChar_ne_nil (sep : Char) (l : List Char) :
    splitChar sep l ≠ [] := by
  cases l with
  | nil => simp [splitChar]
  | cons c cs =>
    simp only [splitChar]
    cases splitChar sep cs with
    | nil => simp
    | cons h t => by_cases hc : c = sep <;> simp [hc]

theorem splitChar_of_not_mem (sep : Char) (l : List Char) (h : sep ∉ l) :
    splitChar sep l = [l] := by
  induction l with
  | nil => rfl
  | cons c cs ih =>
    have hc : c ≠ sep := fun he => h (he ▸ List.mem_cons_self c cs)
    have hcs : sep ∉ cs := fun hm => h (List.mem_cons_of_mem c hm)
    simp only [splitChar, ih hcs]
    simp [hc]

theorem splitChar_length (sep : Char) (l : List Char) :
    (splitChar sep l).length = l.count sep + 1 := by
  induction l with
  | nil => simp [splitChar]
  | cons c cs ih =>
    cases hs : splitChar sep cs with
    | nil => exact absurd hs (splitChar_ne_nil sep cs)
    | cons h t =>
      rw [hs] at ih
      simp only [List.length_cons] at ih
      by_cases hc : c = sep
      · simp only [splitChar, hs]
        simp [hc, List.count_cons]
        omega
      · simp only [splitChar, hs]
        simp [hc, List.count_cons, Ne.symm hc]
        omega

/-- The final component of `splitChar` (`split('.').pop()`). -/
def lastPart (sep : Char) (l : List Char) : List Char :=
  (splitChar sep l).getLastD []

theorem splitChar_last_decomp (sep : Char) (l : List Char) (h : sep ∈ l) :
    ∃ pre, l = pre ++ sep :: lastPart sep l ∧ sep ∉ lastPart sep l := by
  induction l with
  | nil => cases h
  | cons c cs ih =>
    by_cases hcs : sep ∈ cs
    · obtain ⟨pre, hpre, hnm⟩ := ih hcs
      cases hs : splitChar sep cs with
      | nil => exact absurd hs (splitChar_ne_nil sep cs)
      | cons hd t =>
        have ht : t ≠ [] := by
          have hlen := splitChar_length sep cs
          rw [hs] at hlen
          have hpos : 0 < cs.count sep := List.count_pos_iff.mpr hcs
          intro hte
          rw [hte] at hlen
          simp at hlen
          omega
        obtain ⟨y, t2, rfl⟩ := List.exists_cons_of_ne_nil ht
        have hlast : lastPart sep (c :: cs) = lastPart sep cs := by
          unfold lastPart
          simp only [splitChar, hs]
          by_cases hc : c = sep <;> simp [hc, List.getLastD_cons]
        rw [hlast]
        exact ⟨c :: pre, by rw [List.cons_append, ← hpre], hnm⟩
    · have hc : c = sep := by
        rcases List.mem_cons.mp h with h1 | h1
        · exact h1.symm
        · exact absurd h1 hcs
      have hlast : lastPart sep (c :: cs) = cs := by
        unfold lastPart
        simp only [splitChar, splitChar_of_not_mem sep cs hcs]
        simp [hc]
      rw [hlast]
      exact ⟨[], by simp [hc], hcs⟩

theorem last_decomp_unique (sep : Char) (p1 e1 p2 e2 : List Char)
    (h : p1 ++ sep :: e1 = p2 ++ sep :: e2) (h1 : sep ∉ e1)
    (h2 : sep ∉ e2) : e1 = e2 := by
  induction p1 generalizing p2 with
  | nil =>
    cases p2 with
    | nil => simpa using h
    | cons d p2t =>
      simp only [List.nil_append, List.cons_append, List.cons.injEq] at h
      exact absurd
        (h.2 ▸ List.mem_append_right p2t (List.mem_cons_self sep e2)) h1
  | cons c p1t ih =>
    cases p2 with
    | nil =>
      simp only [List.nil_append, List.cons_append, List.cons.injEq] at h
      exact absurd
        (h.2 ▸ List.mem_append_right p1t (List.mem_cons_self sep e1)) h2
    | cons d p2t =>
      simp only [List.cons_append, List.cons.injEq] at h
      exact ih p2t h.2

/-- Constant `ALLOWED_EXTENSIONS` from `plugins/multipart.js`. -/
def ALLOWED_EXTENSIONS : List (List Char) :=
  ["png", "jpg", "jpeg", "gif"].map String.data

/-- Function `allowedFile` from `plugins/multipart.js`: return false when the
filename has no dot, otherwise test whether the lower-cased final
component of `filename.split('.')` is an allowed extension. -/
def allowedFile (filename : String) : Bool :=
  if !(filename.data.contains '.') then false
  else
    ALLOWED_EXTENSIONS.contains
      ((lastPart '.' filename.data).map Char.toLower)

/-- C9: `allowedFile` returns true exactly when the filename contains a
dot and the lower-cased substring after the last dot is one of the allowed
extensions; in particular every dotless filename is rejected and the check
is case-insensitive. -/
theorem allowedFile_iff (f : String) :
    allowedFile f = true ↔
      ∃ pre ext, f.data = pre ++ '.' :: ext ∧ '.' ∉ ext ∧
        ALLOWED_EXTENSIONS.contains (ext.map Char.toLower) = true := by
  constructor
  · intro h
    have hdot : '.' ∈ f.data := by
      by_contra hn
      have hf : f.data.contains '.' = false := by
        simp [List.contains, hn]
      simp only [allowedFile, hf, Bool.not_false, if_pos] at h
      cases h
    have hf : f.data.contains '.' = true := by
      simp [List.contains, hdot]
    have hval : allowedFile f =
        ALLOWED_EXTENSIONS.contains ((lastPart '.' f.data).map Char.toLower)
      := by
      simp [allowedFile, hf]
      exact fun _ => hdot
    obtain ⟨pre, hpre, hnm⟩ := splitChar_last_decomp '.' f.data hdot
    exact ⟨pre, lastPart '.' f.data, hpre, hnm, hval ▸ h⟩
  · rintro ⟨pre, ext, heq, hnm, hcont⟩
    have hdot : '.' ∈ f.data :=
      heq ▸ List.mem_append_right pre (List.mem_cons_self '.' ext)
    obtain ⟨pre2, hpre2, hnm2⟩ := splitChar_last_decomp '.' f.data hdot
    have hext : ext = lastPart '.' f.data :=
      last_decomp_unique '.' pre ext pre2 (lastPart '.' f.data)
        (heq ▸ hpre2) hnm hnm2
    have hf : f.data.contains '.' = true := by
      simp [List.contains, hdot]
    have hval : allowedFile f =
        ALLOWED_EXTENSIONS.contains ((lastPart '.' f.data).map Char.toLower)
      := by
      simp [allowedFile, hf]
      exact fun _ => hdot
    rw [hval, ← hext]
    exact hcont

/-! ## C8: avatar upload mutates only the avatar field -/

/-- A multipart file upload (`request.body.avatar`). -/
structure FileUpload where
  filename : String
  buf : String
deriving DecidableEq, Repr

/-- The outcome of `POST /profile`: a redirect, or the propagated
TypeError raised by `users[username].avatar = ...` on a missing record. -/
inductive UploadOutcome where
  | redirect (path : String)
  | serverError
deriving DecidableEq, Repr

/-- State and reply after `POST /profile`. -/
structure ProfileResult where
  users : DataUserStore
  pages : PageStore
  flash : FlashStore
  outcome : UploadOutcome
deriving DecidableEq, Repr

/-- Handler `POST /profile` from part_015: unauthenticated requests redirect to
`/login`; a missing file or a disallowed extension flashes danger and
redirects to `/profile` without touching the stores; otherwise the upload
is saved under the timestamped name `now + "_" + filename` and the avatar
field of the logged-in user's record is set to that name. -/
def profilePost (users : DataUserStore) (pages : PageStore)
    (session : Session) (flash : FlashStore) (file : Option FileUpload)
    (now : Nat) : ProfileResult :=
  if !(truthy session.username) then
    { users := users, pages := pages
      flash := flashPush flash "danger"
        "You must be logged in to upload an avatar."
      outcome := .redirect "/login" }
  else
    match file with
    | none =>
      { users := users, pages := pages
        flash := flashPush flash "danger" "No file selected."
        outcome := .redirect "/profile" }
    | some f =>
      if !(allowedFile f.filename) then
        { users := users, pages := pages
          flash := flashPush flash "danger"
            "Invalid file type. Allowed: png, jpg, jpeg, gif."
          outcome := .redirect "/profile" }
      else
        let uname := (session.username).getD ""
        let newName := toString now ++ "_" ++ f.filename
        match objGet users uname with
        | none =>
          { users := users, pages := pages, flash := flash
            outcome := .serverError }
        | some _ =>
          { users := objUpdate users uname
              (fun r => { r with avatar := some newName })
            pages := pages
            flash := flashPush flash "success" "Avatar updated!"
            outcome := .redirect "/profile" }

/-- C8: for a logged-in `POST /profile` whose attached file passes
`allowedFile`, only the avatar field of that user's record changes — the
password hash, every other user record and the pages store are unchanged —
and when the file is missing or has a disallowed extension no record
changes at all and the reply redirects to `/profile` with a danger
flash. -/
theorem profilePost_avatar_only (users : DataUserStore) (pages : PageStore)
    (session : Session) (flash : FlashStore) (file : Option FileUpload)
    (now : Nat) (u : String) (r : DataUserRec)
    (hu : session.username = some u) (htr : truthy session.username = true)
    (hrec : objGet users u = some r) :
    (file = none →
      profilePost users pages session flash file now =
        { users := users, pages := pages
          flash := flashPush flash "danger" "No file selected."
          outcome := .redirect "/profile" }) ∧
    (∀ f, file = some f → allowedFile f.filename = false →
      profilePost users pages session flash file now =
        { users := users, pages := pages
          flash := flashPush flash "danger"
            "Invalid file type. Allowed: png, jpg, jpeg, gif."
          outcome := .redirect "/profile" }) ∧
    (∀ f, file = some f → allowedFile f.filename = true →
      objGet (profilePost users pages session flash file now).users u =
        some { password := r.password
               avatar := some (toString now ++ "_" ++ f.filename) } ∧
      (∀ w, w ≠ u →
        objGet (profilePost users pages session flash file now).users w =
          objGet users w) ∧
      (profilePost users pages session flash file now).pages = pages ∧
      (profilePost users pages session flash file now).flash =
        flashPush flash "success" "Avatar updated!" ∧
      (profilePost users pages session flash file now).outcome =
        .redirect "/profile") := by
  have htr2 : truthy (some u) = true := hu ▸ htr
  refine ⟨?_, ?_, ?_⟩
  · intro hf
    simp [profilePost, hu, htr2, hf]
  · intro f hf hall
    simp [profilePost, hu, htr2, hf, hall]
  · intro f hf hall
    refine ⟨?_, ?_, ?_, ?_, ?_⟩
    · simp [profilePost, hu, htr2, hf, hall, hrec]
      simpa using objGet_objUpdate_self users u
        (fun q => { q with avatar := some (toString now ++ "_" ++ f.filename) })
        r hrec
    · intro w hw
      simp [profilePost, hu, htr2, hf, hall, hrec]
      exact objGet_objUpdate_ne users u w _ hw
    · simp [profilePost, hu, htr2, hf, hall, hrec]
    · simp [profilePost, hu, htr2, hf, hall, hrec]
    · simp [profilePost, hu, htr2, hf, hall, hrec]

/-- The data store of the C8 witness. -/
def dataUsers0 : DataUserStore :=
  [("alice", { password := "h:pw", avatar := none })]

theorem profilePost_avatar_only_witness :
    profilePost dataUsers0 [] sessionAlice [] none 5 =
      { users := dataUsers0, pages := []
        flash := flashPush [] "danger" "No file selected."
        outcome := .redirect "/profile" } ∧
    objGet (profilePost dataUsers0 [] sessionAlice []
        (some { filename := "me.PNG", buf := "x" }) 5).users "alice" =
      some { password := "h:pw", avatar := some "5_me.PNG" } := by
  have h := profilePost_avatar_only dataUsers0 [] sessionAlice [] none 5
    "alice" { password := "h:pw", avatar := none } rfl (by decide) (by decide)
  have h2 := profilePost_avatar_only dataUsers0 [] sessionAlice []
    (some { filename := "me.PNG", buf := "x" }) 5
    "alice" { password := "h:pw", avatar := none } rfl (by decide) (by decide)
  refine ⟨h.1 rfl, ?_⟩
  have h3 := (h2.2.2 { filename := "me.PNG", buf := "x" } rfl (by decide)).1
  simpa using h3

/-! ## C6: contact-form validation and CSRF field -/

/-- The request body of `POST /contact_csrf`; each field is present or
absent. -/
structure ContactBody where
  name : Option String
  message : Option String
  csrf : Option String
deriving DecidableEq, Repr

/-- Validation messages produced for the `name` property of
`contactSchema` (required, minLength 3, maxLength 25). -/
def nameErrors (name : Option String) : List String :=
  match name with
  | none => ["body must have required property name"]
  | some n =>
    (if n.length < 3 then
       ["body/name must NOT have fewer than 3 characters"] else []) ++
    (if 25 < n.length then
       ["body/name must NOT have more than 25 characters"] else [])

/-- Validation messages for the `message` property (required,
maxLength 200). -/
def messageErrors (message : Option String) : List String :=
  match message with
  | none => ["body must have required property message"]
  | some m =>
    if 200 < m.length then
      ["body/message must NOT have more than 200 characters"] else []

/-- Validation messages for the `_csrf` property (required). -/
def csrfErrors (csrf : Option String) : List String :=
  match csrf with
  | none => ["body must have required property _csrf"]
  | some _ => []

/-- The JSON-schema validation of `contactSchema`. -/
def validateContact (b : ContactBody) : List String :=
  nameErrors b.name ++ messageErrors b.message ++ csrfErrors b.csrf

/-- The reply of the contact_csrf route: the rendered `contact_csrf` view
with its template data. -/
structure ContactReply where
  submittedName : Option String
  errors : List String
  csrfToken : String
deriving DecidableEq, Repr

/-- What a `POST /contact_csrf` request produces: the lines logged by the
handler and the rendered view. -/
structure ContactResult where
  log : List String
  reply : ContactReply
deriving DecidableEq, Repr

/-- Dispatch of `POST /contact_csrf`: when the body violates
`contactSchema` the handler never runs and the `setErrorHandler` of
`app.js` re-renders the `contact_csrf` view with the validation errors and
a freshly generated token (`token` models `reply.generateCsrf()`);
otherwise the handler logs the submission and re-renders the view with the
submitted name. -/
def contactCsrfPost (token : String) (b : ContactBody) : ContactResult :=
  if validateContact b = [] then
    { log := ["Received from " ++ (b.name.getD "") ++ ": " ++
        (b.message.getD "")]
      reply := { submittedName := b.name, errors := [], csrfToken := token } }
  else
    { log := []
      reply := { submittedName := none, errors := validateContact b
                 csrfToken := token } }

/-- C6: a `POST /contact_csrf` whose body lacks `name`, `message` or
`_csrf`, or whose name is shorter than 3 or longer than 25 characters, or
whose message exceeds 200 characters, is rejected before the handler runs
(nothing is logged) and the error handler re-renders the `contact_csrf`
view with the validation error messages and a fresh CSRF token; moreover a
submission is only ever logged when a `_csrf` field is present. -/
theorem contact_validation_rejects (token : String) (b : ContactBody)
    (h : b.name = none ∨ b.message = none ∨ b.csrf = none ∨
      (∃ n, b.name = some n ∧ (n.length < 3 ∨ 25 < n.length)) ∨
      (∃ m, b.message = some m ∧ 200 < m.length)) :
    validateContact b ≠ [] ∧
    contactCsrfPost token b =
      { log := []
        reply := { submittedName := none, errors := validateContact b
                   csrfToken := token } } ∧
    (∀ t bb, (contactCsrfPost t bb).log ≠ [] → bb.csrf.isSome = true) := by
  have hne : validateContact b ≠ [] := by
    unfold validateContact
    rcases h with h | h | h | ⟨n, hn, hlen⟩ | ⟨m, hm, hlen⟩
    · simp [nameErrors, h]
    · simp [messageErrors, h]
    · simp [csrfErrors, h]
    · rcases hlen with hlen | hlen <;>
        simp [nameErrors, hn, hlen, Nat.not_lt.mpr (le_of_lt hlen)]
    · simp [messageErrors, hm, hlen]
  refine ⟨hne, by simp [contactCsrfPost, hne], ?_⟩
  intro t bb hlog
  cases hcs : bb.csrf with
  | some s => rfl
  | none =>
    have : validateContact bb ≠ [] := by
      unfold validateContact
      simp [csrfErrors, hcs]
    simp [contactCsrfPost, this] at hlog

theorem contact_validation_rejects_witness :
    validateContact { name := some "ab", message := some "hi"
                      csrf := some "tok" } ≠ [] ∧
    contactCsrfPost "t2" { name := some "ab", message := some "hi"
                           csrf := some "tok" } =
      { log := []
        reply := { submittedName := none
                   errors := validateContact
                     { name := some "ab", message := some "hi"
                       csrf := some "tok" }
                   csrfToken := "t2" } } := by
  have h := contact_validation_rejects "t2"
    { name := some "ab", message := some "hi", csrf := some "tok" }
    (Or.inr (Or.inr (Or.inr (Or.inl ⟨"ab", rfl, Or.inl (by decide)⟩))))
  exact ⟨h.1, h.2.1⟩

/-! ## C10: the books route of part_011 -/

/-- A record of the in-route `booksDb`. -/
structure Book where
  id : String
  title : String
  author : String
  price : Nat
deriving DecidableEq, Repr

/-- The literal `booksDb` object of part_011. -/
def booksDb : List (String × Book) :=
  [("201", { id := "201", title := "Clean Code"
             author := "Robert C. Martin", price := 35 }),
   ("202", { id := "202", title := "The Pragmatic Programmer"
             author := "Andrew Hunt", price := 45 }),
   ("203", { id := "203", title := "Design Patterns"
             author := "Erich Gamma", price := 55 })]

/-- The JSON body returned by `GET /books/:bookId`. -/
inductive BookBody where
  | full (b : Book)
  | summary (title author : String)
  | error (msg : String)
deriving DecidableEq, Repr

/-- Handler `GET /books/:bookId` from part_011: when the query parameter `summary`
equals the string `true`, destructuring an unknown book throws, is caught
and answered with 404 `Book not found`, while a known book returns only
title and author; on any other `summary` value the handler returns the
full record, or the `Book not found` body with the default 200 status. -/
def getBookHandler (bookId : String) (summary : Option String) :
    Nat × BookBody :=
  if summary = some "true" then
    match objGet booksDb bookId with
    | some b => (200, .summary b.title b.author)
    | none => (404, .error "Book not found")
  else
    match objGet booksDb bookId with
    | some b => (200, .full b)
    | none => (200, .error "Book not found")

/-- C10: an unknown bookId yields status 404 with the `Book not found`
body exactly when `summary` is the string `true`, and a 200 with the same
error body otherwise; a known bookId yields 200 with the full record, or
only its title and author when `summary` is `true`. -/
theorem getBook_spec (bookId : String) (q : Option String) :
    (objGet booksDb bookId = none →
      getBookHandler bookId q =
        (if q = some "true" then 404 else 200, .error "Book not found")) ∧
    (∀ b, objGet booksDb bookId = some b →
      getBookHandler bookId q =
        if q = some "true" then (200, .summary b.title b.author)
        else (200, .full b)) := by
  constructor
  · intro h
    by_cases hq : q = some "true" <;> simp [getBookHandler, h, hq]
  · intro b h
    by_cases hq : q = some "true" <;> simp [getBookHandler, h, hq]

theorem getBook_spec_witness :
    getBookHandler "999" (some "true") = (404, .error "Book not found") ∧
    getBookHandler "999" none = (200, .error "Book not found") ∧
    getBookHandler "201" (some "true") =
      (200, .summary "Clean Code" "Robert C. Martin") := by
  refine ⟨?_, ?_, ?_⟩
  · simpa using (getBook_spec "999" (some "true")).1 (by decide)
  · simpa using (getBook_spec "999" none).1 (by decide)
  · simpa using (getBook_spec "201" (some "true")).2
      { id := "201", title := "Clean Code", author := "Robert C. Martin"
        price := 35 } (by decide)

end FastifyJs
